import Mathlib

/-! Admin controllers of the Medliver backend.

A shallow embedding of `adminPathologyController.js` and
`adminCustomerController.js`: the document store is a record of lists, every
handler is a function from the request and the store to the reply it gives,
the store it leaves behind and the calls it made on the transaction session.

Collaborators that are not part of the controllers (the bcrypt hash, the
generation of object identifiers, the clock, and the points at which the
store or the response helper may raise) are parameters of the model.
-/

namespace Medliver

/-! ## Data model -/

/-- Identifier of a stored document (a Mongo ObjectId), kept abstract. -/
abbrev ObjectId := Nat

/-- Modelled from the spec: the Admin schema (`modals/admin.Schema`) is not
part of the sources read here.  The fields are the ones written by
`createPathologyCenter`, the back-reference `pathologyCenterId` it saves, and
the phone number the data model of the specification speaks of. -/
structure Admin where
  _id : ObjectId
  name : String
  email : String
  password : String
  role : String
  avatar : Option String
  isActive : Bool
  phoneNumber : Option String
  pathologyCenterId : Option ObjectId
deriving DecidableEq, Repr

/-- Modelled from the spec: the PathologyCenter schema
(`modals/pathology.model`) is not part of the sources read here.  The fields
are the ones written by `createPathologyCenter`, plus the creation time the
list handlers sort on. -/
structure PathologyCenter where
  _id : ObjectId
  centerName : String
  email : String
  phoneNumber : String
  address : String
  labs : Option (List String)
  bookings : List String
  sampleCollection : List String
  adminId : Option ObjectId
  createdAt : Nat
deriving DecidableEq, Repr

/-- Modelled from the spec: the Customer schema (`modals/customer.model`) is
not part of the sources read here.  Identity fields, the authentication
secret, the one-time password, the `isBlocked` flag and the creation time. -/
structure Customer where
  _id : ObjectId
  fullName : String
  email : String
  phoneNumber : String
  password : String
  otp : Option String
  isBlocked : Bool
  createdAt : Nat
deriving DecidableEq, Repr

/-- The three collections the two controllers read and write. -/
structure Store where
  admins : List Admin
  centers : List PathologyCenter
  customers : List Customer
deriving DecidableEq, Repr

/-! ## Replies -/

/-- The points of `createPathologyCenter` at which a collaborator may raise. -/
inductive Step where
  | startSession
  | startTransaction
  | findCenter
  | findAdmin
  | hash
  | createAdmin
  | createCenter
  | saveAdmin
  | commitTransaction
  | respond
deriving DecidableEq, Repr

/-- What is handed to `next`: a `CustomError` built by the controller, an
exception raised by a collaborator of `createPathologyCenter` at one of its
steps, or an error thrown by the runtime or the store driver itself (an
`abortTransaction` with no transaction in progress, a `skip` or `limit` the
store refuses, a pattern the `RegExp` constructor rejects). -/
inductive Err where
  | custom (message : String) (statusCode : Nat)
  | raised (step : Step)
  | thrown (message : String)
deriving DecidableEq, Repr

/-- The reply of a handler: `successRes(res, status, success, message, data)`,
`next(err)`, or nothing at all. -/
inductive Reply (α : Type) where
  | sent (status : Nat) (success : Bool) (message : String) (data : α)
  | next (err : Err)
  | silent
deriving DecidableEq, Repr

/-- The HTTP status of a reply, where the controller fixes it: the status
given to `successRes`, or the status code of a `CustomError`. -/
def Reply.status {α : Type} : Reply α → Option Nat
  | .sent status _ _ _ => some status
  | .next (.custom _ statusCode) => some statusCode
  | _ => none

/-- JavaScript truthiness of a value that is either absent or a string. -/
def truthy : Option String → Bool
  | some s => s != ""
  | none => false

/-! ## createPathologyCenter -/

/-- Calls made on the session API, in the order they are issued. -/
inductive Event where
  | startSession
  | startTransaction
  | commitTransaction
  | abortTransaction
  | endSession
deriving DecidableEq, Repr

/-- State of the session's transaction as the driver keeps it.  A call of
`commitTransaction` puts it in `committed` whether the commit goes through or
raises. -/
inductive TxnState where
  | idle
  | active
  | committed
  | aborted
deriving DecidableEq, Repr

/-- The collaborators of `createPathologyCenter`: `bcrypt.hash(·, 12)`, the
identifiers the store gives to the two created documents, the clock, and the
steps at which a collaborator raises. -/
structure Env where
  hash : String → String
  adminOid : ObjectId
  centerOid : ObjectId
  now : Nat
  fails : Step → Bool

/-- The caller attached to the request by the token check (`req.admin`). -/
structure Caller where
  role : Option String
deriving DecidableEq, Repr

/-- The fields `createPathologyCenter` reads from `req.body`. -/
structure CreateBody where
  centerName : Option String
  email : Option String
  phoneNumber : Option String
  address : Option String
  labs : Option (List String)
  password : Option String
  bookings : Option (List String)
  sampleCollection : Option (List String)
deriving DecidableEq, Repr

/-- The request of `createPathologyCenter`. -/
structure CreateRequest where
  admin : Caller
  body : CreateBody
deriving DecidableEq, Repr

/-- The plain object `toObject()` gives for an admin document; `password` is
absent once it has been deleted from the object. -/
structure AdminObject where
  _id : ObjectId
  name : String
  email : String
  password : Option String
  role : String
  avatar : Option String
  isActive : Bool
  phoneNumber : Option String
  pathologyCenterId : Option ObjectId
deriving DecidableEq, Repr

/-- The method `toObject()` of an admin document. -/
def Admin.toObject (a : Admin) : AdminObject :=
  { _id := a._id, name := a.name, email := a.email, password := some a.password,
    role := a.role, avatar := a.avatar, isActive := a.isActive,
    phoneNumber := a.phoneNumber, pathologyCenterId := a.pathologyCenterId }

/-- The data of the 201 reply of `createPathologyCenter`. -/
structure CreatedData where
  admin : AdminObject
  pathologyCenter : PathologyCenter
deriving DecidableEq, Repr

/-- The session with its transaction: the committed store, the view of the
transaction in progress, and the calls made so far. -/
structure Session where
  txn : TxnState
  store : Store
  view : Store
  events : List Event
deriving DecidableEq, Repr

/-- The query `PathologyCenter.findOne` with `$or: [email, phoneNumber]`. -/
def findCenterByEmailOrPhone (s : Store) (email phoneNumber : String) :
    Option PathologyCenter :=
  s.centers.find? (fun c => c.email == email || c.phoneNumber == phoneNumber)

/-- The query `Admin.findOne` on `email`. -/
def findAdminByEmail (s : Store) (email : String) : Option Admin :=
  s.admins.find? (fun a => a.email == email)

/-- The update `doc.save()` issues on a collection: the first document that
carries the identifier `oid` is replaced by `doc`. -/
def saveDoc {α : Type} (ident : α → ObjectId) (oid : ObjectId) (doc : α) : List α → List α
  | [] => []
  | a :: rest => if ident a = oid then doc :: rest else a :: saveDoc ident oid doc rest

/-- The body of the `try` block of `createPathologyCenter`, lines 33 to 83,
once the mandatory fields are known to be present.  The result is either the
reply sent or the exception thrown, with the session as it is at that point. -/
def createTry (env : Env) (centerName email phoneNumber address password : String)
    (body : CreateBody) (s0 : Session) : Except Err (Reply CreatedData) × Session :=
  let s0 := { s0 with events := s0.events ++ [Event.startTransaction] }
  if env.fails Step.startTransaction then (.error (.raised .startTransaction), s0) else
  let s1 := { s0 with txn := TxnState.active, view := s0.store }
  if env.fails Step.findCenter then (.error (.raised .findCenter), s1) else
  if env.fails Step.findAdmin then (.error (.raised .findAdmin), s1) else
  let existingCenter := findCenterByEmailOrPhone s1.view email phoneNumber
  let existingAdmin := findAdminByEmail s1.view email
  if existingCenter.isSome || existingAdmin.isSome then
    (.error (.custom "Email or phone already exists" 400), s1) else
  if env.fails Step.hash then (.error (.raised .hash), s1) else
  let hashedPassword := env.hash password
  if env.fails Step.createAdmin then (.error (.raised .createAdmin), s1) else
  let newAdmin : Admin :=
    { _id := env.adminOid, name := centerName, email := email, password := hashedPassword,
      role := "pathology", avatar := none, isActive := true, phoneNumber := none,
      pathologyCenterId := none }
  let s2 := { s1 with view := { s1.view with admins := s1.view.admins ++ [newAdmin] } }
  if env.fails Step.createCenter then (.error (.raised .createCenter), s2) else
  let newCenter : PathologyCenter :=
    { _id := env.centerOid, centerName := centerName, email := email,
      phoneNumber := phoneNumber, address := address, labs := body.labs,
      bookings := body.bookings.getD [], sampleCollection := body.sampleCollection.getD [],
      adminId := some newAdmin._id, createdAt := env.now }
  let s3 := { s2 with view := { s2.view with centers := s2.view.centers ++ [newCenter] } }
  let linkedAdmin : Admin := { newAdmin with pathologyCenterId := some newCenter._id }
  if env.fails Step.saveAdmin then (.error (.raised .saveAdmin), s3) else
  let s4 := { s3 with view := { s3.view with
    admins := saveDoc Admin._id linkedAdmin._id linkedAdmin s3.view.admins } }
  let s4 := { s4 with events := s4.events ++ [Event.commitTransaction],
                      txn := TxnState.committed }
  if env.fails Step.commitTransaction then (.error (.raised .commitTransaction), s4) else
  let s5 := { s4 with store := s4.view }
  if env.fails Step.respond then (.error (.raised .respond), s5) else
  let sanitizedAdmin : AdminObject := { linkedAdmin.toObject with password := none }
  (.ok (.sent 201 true "Pathology Center and Admin created successfully"
      { admin := sanitizedAdmin, pathologyCenter := newCenter }), s5)

/-- The result of running a handler that works through a session. -/
structure Outcome where
  reply : Reply CreatedData
  store : Store
  events : List Event
  txn : TxnState
deriving DecidableEq, Repr

/-- The `catch` and `finally` blocks of `createPathologyCenter`, lines 84 to
89: `abortTransaction` discards the view of a transaction in progress and
raises when none is in progress; `endSession` is called in every case. -/
def createFinish : Except Err (Reply CreatedData) × Session → Outcome
  | (.ok reply, s) =>
      { reply := reply, store := s.store, events := s.events ++ [Event.endSession],
        txn := s.txn }
  | (.error e, s) =>
      let events := s.events ++ [Event.abortTransaction, Event.endSession]
      match s.txn with
      | .active => { reply := .next e, store := s.store, events := events, txn := .aborted }
      | .idle =>
          { reply := .next (.thrown "No transaction started"), store := s.store,
            events := events, txn := .idle }
      | .committed =>
          { reply := .next (.thrown
              "Cannot call abortTransaction after calling commitTransaction"),
            store := s.store, events := events, txn := .committed }
      | .aborted =>
          { reply := .next (.thrown "Cannot call abortTransaction twice"),
            store := s.store, events := events, txn := .aborted }

/-- The handler `createPathologyCenter`, lines 9 to 90. -/
def createPathologyCenter (env : Env) (req : CreateRequest) (db : Store) : Outcome :=
  if !truthy req.admin.role || req.admin.role != some "superadmin" then
    { reply := .next (.custom "Only superadmin can create a pathology center" 403),
      store := db, events := [], txn := .idle }
  else if !truthy req.body.centerName || !truthy req.body.email
      || !truthy req.body.phoneNumber || !truthy req.body.address
      || !truthy req.body.password then
    { reply := .next (.custom "All required fields must be provided" 400),
      store := db, events := [], txn := .idle }
  else if env.fails Step.startSession then
    { reply := .next (.raised .startSession), store := db, events := [Event.startSession],
      txn := .idle }
  else
    createFinish (createTry env (req.body.centerName.getD "") (req.body.email.getD "")
      (req.body.phoneNumber.getD "") (req.body.address.getD "")
      (req.body.password.getD "") req.body
      { txn := .idle, store := db, view := db, events := [Event.startSession] })

/-! ## Query parameters and paging -/

/-- The characters `parseInt` skips at the start of its argument: the white
space and line terminator code points of ECMAScript. -/
def isStrWhiteSpace (c : Char) : Bool :=
  let n := c.toNat
  n = 9 || n = 10 || n = 11 || n = 12 || n = 13 || n = 32 || n = 160 || n = 5760
    || (8192 ≤ n && n ≤ 8202) || n = 8232 || n = 8233 || n = 8239 || n = 8287
    || n = 12288 || n = 65279

/-- Value of a character as a digit in the given radix, if it is one. -/
def digitValue (radix : Nat) (c : Char) : Option Nat :=
  let n := c.toNat
  let v : Option Nat :=
    if 48 ≤ n && n ≤ 57 then some (n - 48)
    else if 97 ≤ n && n ≤ 122 then some (n - 87)
    else if 65 ≤ n && n ≤ 90 then some (n - 55)
    else none
  v.filter (fun d => d < radix)

/-- The longest run of digits at the start of the text, read in the radix, on
top of the digits read so far; `none` when no digit has been read. -/
def readDigits (radix : Nat) : Option Nat → List Char → Option Nat
  | acc, [] => acc
  | acc, c :: rest =>
    match digitValue radix c with
    | some d => readDigits radix (some (acc.getD 0 * radix + d)) rest
    | none => acc

/-- The text after an optional sign, with the sign read. -/
def readSign : List Char → Int × List Char
  | c :: rest => if c.toNat = 45 then (-1, rest) else if c.toNat = 43 then (1, rest)
      else (1, c :: rest)
  | [] => (1, [])

/-- The text after an optional `0x` or `0X`, with the radix to read it in. -/
def readRadix : List Char → Nat × List Char
  | c :: d :: rest =>
    if c.toNat = 48 && (d.toNat = 120 || d.toNat = 88) then (16, rest) else (10, c :: d :: rest)
  | cs => (10, cs)

/-- A JavaScript number as the handlers meet it: `NaN`, a double whose value
is the integer `n`, or an infinity.  Every number read by `parseInt`, and
every difference or product of such numbers, is of one of these kinds; plus
and minus zero are one value here. -/
inductive JsNumber where
  | nan
  | int (n : Int)
  | infinity (negative : Bool)
deriving DecidableEq, Repr

instance (n : Nat) : OfNat JsNumber n := ⟨JsNumber.int n⟩

/-- The number of low bits a natural number loses when it is kept to the 53
bits of the significand of a double. -/
def lostBits : Nat → Nat → Nat
  | 0, _ => 0
  | fuel + 1, n => if n < 2 ^ 53 then 0 else lostBits fuel (n / 2) + 1

/-- The double nearest to a natural number, ties to the even significand;
`none` stands for `Infinity`.  Numbers below `2^53` are kept as they are. -/
def roundToDouble (n : Nat) : Option Nat :=
  if n < 2 ^ 53 then some n
  else if 2 ^ 1024 ≤ n then none
  else
    let e := lostBits 1024 n
    let q := n / 2 ^ e
    let r := n % 2 ^ e
    let m := if 2 ^ e < 2 * r || (2 * r == 2 ^ e && q % 2 == 1) then q + 1 else q
    if m * 2 ^ e < 2 ^ 1024 then some (m * 2 ^ e) else none

/-- The Number value of a mathematical integer. -/
def JsNumber.ofInt (n : Int) : JsNumber :=
  match roundToDouble n.natAbs with
  | some m => .int (if n < 0 then -(m : Int) else (m : Int))
  | none => .infinity (decide (n < 0))

/-- The difference of two numbers. -/
def JsNumber.sub : JsNumber → JsNumber → JsNumber
  | .nan, _ => .nan
  | _, .nan => .nan
  | .int a, .int b => JsNumber.ofInt (a - b)
  | .int _, .infinity t => .infinity (!t)
  | .infinity s, .int _ => .infinity s
  | .infinity s, .infinity t => if s = t then .nan else .infinity s

/-- The product of two numbers. -/
def JsNumber.mul : JsNumber → JsNumber → JsNumber
  | .nan, _ => .nan
  | _, .nan => .nan
  | .int a, .int b => JsNumber.ofInt (a * b)
  | .int a, .infinity t => if a = 0 then .nan else .infinity (decide (a < 0) != t)
  | .infinity s, .int b => if b = 0 then .nan else .infinity (s != decide (b < 0))
  | .infinity s, .infinity t => .infinity (s != t)

/-- The global `parseInt` applied to a query value that is absent or a
string: the integer the digits stand for, as a Number.  (For more than twenty
significant decimal digits an implementation may round less exactly.) -/
def parseInt : Option String → JsNumber
  | none => .nan
  | some s =>
    let (sign, afterSign) := readSign (s.toList.dropWhile isStrWhiteSpace)
    let (radix, digits) := readRadix afterSign
    match readDigits radix none digits with
    | some n => JsNumber.ofInt (sign * (n : Int))
    | none => .nan

/-- The expression `n || d` for a number `n`: `NaN` and zero are falsy. -/
def orDefault (n : JsNumber) (d : JsNumber) : JsNumber :=
  match n with
  | .nan => d
  | .int v => if v = 0 then d else .int v
  | .infinity s => .infinity s

/-- The ceiling of the quotient of two integers, the second not zero. -/
def ceilDiv (total limit : Int) : Int := -((-total).fdiv limit)

/-- The expression `Math.ceil(total / limit)` for a count `total` below
`2^53`, where the rounded quotient has the ceiling of the exact one. -/
def ceilQuotient (total : Nat) : JsNumber → JsNumber
  | .nan => .nan
  | .int limit =>
    if limit = 0 then (if total = 0 then .nan else .infinity false)
    else .int (ceilDiv total limit)
  | .infinity _ => .int 0

/-- One step of the sort on a numeric key: `a` is put before the first
element it may precede in the direction `dir` (1 ascending, else
descending). -/
def insertSorted {α : Type} (key : α → Nat) (dir : Int) (a : α) : List α → List α
  | [] => [a]
  | b :: rest =>
    if (if dir = 1 then key a ≤ key b else key b ≤ key a) then a :: b :: rest
    else b :: insertSorted key dir a rest

/-- The cursor method `sort` on one numeric field: 1 is ascending, -1
descending. -/
def sortDocs {α : Type} (key : α → Nat) (dir : Int) (docs : List α) : List α :=
  docs.foldr (insertSorted key dir) []

/-- The cursor methods `skip` and `limit` of the store.  The store takes
64-bit integers: a `skip` or `limit` that is `NaN`, infinite or out of that
range is rejected, and so is a negative `skip`; a negative `limit` is read as
its absolute value and a `limit` of zero as no limit. -/
def skipLimit {α : Type} (skip limit : JsNumber) (docs : List α) : Option (List α) :=
  match skip, limit with
  | .int s, .int l =>
    if s < 0 || 2 ^ 63 ≤ s || 2 ^ 63 ≤ l.natAbs then none
    else if l = 0 then some (docs.drop s.toNat)
    else some ((docs.drop s.toNat).take l.natAbs)
  | _, _ => none

/-- The data of a list reply: the empty array sent when the page has no
document, or the page with its paging fields. -/
inductive PageData (α : Type) where
  | empty
  | page (items : List α) (currentPage : JsNumber) (totalPages : JsNumber) (total : Nat)
deriving DecidableEq, Repr

/-- The documents a reply carries. -/
def Reply.items {α : Type} : Reply (PageData α) → List α
  | .sent _ _ _ (.page items _ _ _) => items
  | _ => []

/-- The lower-case form of a character, on the ASCII letters. -/
def lowerChar (c : Char) : Char :=
  if 65 ≤ c.toNat && c.toNat ≤ 90 then Char.ofNat (c.toNat + 32) else c

/-- The string method `toLowerCase`, on the ASCII letters; no other character
has `a`, `s` or `c` as its lower-case form. -/
def toLowerCase (s : String) : String := String.mk (s.toList.map lowerChar)

/-! ## adminCustomerController -/

/-- The query string of the list handlers. -/
structure ListQuery where
  page : Option String
  limit : Option String
  sortOrder : Option String
deriving DecidableEq, Repr

/-- A customer as returned under the projection `-password -otp`. -/
structure CustomerView where
  _id : ObjectId
  fullName : String
  email : String
  phoneNumber : String
  isBlocked : Bool
  createdAt : Nat
deriving DecidableEq, Repr

/-- The projection `select("-password -otp")`. -/
def Customer.select (c : Customer) : CustomerView :=
  { _id := c._id, fullName := c.fullName, email := c.email, phoneNumber := c.phoneNumber,
    isBlocked := c.isBlocked, createdAt := c.createdAt }

/-- The handler `getAllCustomers`, lines 7 to 35. -/
def getAllCustomers (q : ListQuery) (db : Store) : Reply (PageData CustomerView) :=
  let page := orDefault (parseInt q.page) (.int 1)
  let limit := orDefault (parseInt q.limit) (.int 10)
  let skip := (page.sub (.int 1)).mul limit
  let sortDir : Int := if q.sortOrder.map toLowerCase = some "asc" then 1 else -1
  let total := db.customers.length
  match skipLimit skip limit (sortDocs Customer.createdAt sortDir db.customers) with
  | none => .next (.thrown "skip or limit refused by the store")
  | some found =>
    let customers := found.map Customer.select
    if customers.length = 0 then .sent 200 false "No Customers Found" .empty
    else .sent 200 true "Customers fetched successfully"
      (.page customers page (ceilQuotient total limit) total)

/-- The query `findById` on a collection. -/
def findById {α : Type} (ident : α → ObjectId) (oid : ObjectId) (docs : List α) : Option α :=
  docs.find? (fun d => ident d == oid)

/-- The handler `BlockUnblockCustomer`, lines 53 to 92, with the store it
leaves.  The flag is a boolean, so one of the two tests at lines 69 and 81
holds. -/
def BlockUnblockCustomer (customerId : Option ObjectId) (db : Store) :
    Reply Customer × Store :=
  match customerId with
  | none => (.next (.custom "Customer ID is required" 400), db)
  | some oid =>
    match findById Customer._id oid db.customers with
    | none => (.next (.custom "Customer not found" 404), db)
    | some customer =>
      if customer.isBlocked = true then
        let customer := { customer with isBlocked := false }
        (.sent 200 true "Customer unblocked successfully" customer,
          { db with customers := saveDoc Customer._id oid customer db.customers })
      else if customer.isBlocked = false then
        let customer := { customer with isBlocked := true }
        (.sent 200 true "Customer blocked successfully" customer,
          { db with customers := saveDoc Customer._id oid customer db.customers })
      else (.silent, db)

/-! ## adminPathologyController: lists -/

/-- A pathology center with `adminId` populated: the referenced admin
document in place of its identifier, or null when there is none. -/
structure PopulatedCenter where
  _id : ObjectId
  centerName : String
  email : String
  phoneNumber : String
  address : String
  labs : Option (List String)
  bookings : List String
  sampleCollection : List String
  adminId : Option AdminObject
  createdAt : Nat
deriving DecidableEq, Repr

/-- The cursor method `populate("adminId")` on one center. -/
def populateAdmin (db : Store) (c : PathologyCenter) : PopulatedCenter :=
  { _id := c._id, centerName := c.centerName, email := c.email,
    phoneNumber := c.phoneNumber, address := c.address, labs := c.labs,
    bookings := c.bookings, sampleCollection := c.sampleCollection,
    adminId := (c.adminId.bind (fun oid => findById Admin._id oid db.admins)).map
      Admin.toObject,
    createdAt := c.createdAt }

/-- The handler `getAllPathologyCenters`, lines 159 to 181. -/
def getAllPathologyCenters (q : ListQuery) (db : Store) : Reply (PageData PopulatedCenter) :=
  let page := orDefault (parseInt q.page) (.int 1)
  let limit := orDefault (parseInt q.limit) (.int 10)
  let skip := (page.sub (.int 1)).mul limit
  let totalPathologyCenters := db.centers.length
  match skipLimit skip limit (sortDocs PathologyCenter.createdAt (-1) db.centers) with
  | none => .next (.thrown "skip or limit refused by the store")
  | some found =>
    let allPathologyCenters := found.map (populateAdmin db)
    if allPathologyCenters.length = 0 then .sent 200 false "No Pathology Centers Found" .empty
    else .sent 200 true "Pathology Centers fetched successfully"
      (.page allPathologyCenters page (ceilQuotient totalPathologyCenters limit)
        totalPathologyCenters)

/-- The regular expressions of the platform, a collaborator: whether
`new RegExp(value, "i")` accepts the pattern, and whether the store finds a
match of the pattern, case ignored, somewhere in a text. -/
structure RegExpEngine where
  accepts : String → Bool
  test : String → String → Bool

/-- The query string of `searchPathology` as a client may send it. -/
structure SearchQuery where
  value : Option String
  page : Option String
  limit : Option String
deriving DecidableEq, Repr

/-- The filter `searchQuery` of `searchPathology`: the pattern is looked for
in `centerName` or in `email`. -/
def searchQuery (re : RegExpEngine) (value : String) (c : PathologyCenter) : Bool :=
  re.test value c.centerName || re.test value c.email

/-- The handler `searchPathology`, lines 183 to 220.  Only `value` is taken
from the query; `page` and `limit` are local variables declared without a
value at line 185. -/
def searchPathology (re : RegExpEngine) (q : SearchQuery) (db : Store) :
    Reply (PageData PathologyCenter) :=
  let value := q.value
  let page : Option String := none
  let limit : Option String := none
  if !truthy value then .next (.custom "Search value is required" 400) else
  let page := orDefault (parseInt page) (.int 1)
  let limit := orDefault (parseInt limit) (.int 10)
  let skip := (page.sub (.int 1)).mul limit
  if !re.accepts (value.getD "") then .next (.thrown "Invalid regular expression") else
  let matching := db.centers.filter (searchQuery re (value.getD ""))
  let totalPatholody := matching.length
  match skipLimit skip limit (sortDocs PathologyCenter.createdAt (-1) matching) with
  | none => .next (.thrown "skip or limit refused by the store")
  | some allPathology =>
    if allPathology.length = 0 then .sent 200 false "No Pathology Found" .empty
    else .sent 200 true "Pathology fetched successfully"
      (.page allPathology page (ceilQuotient totalPatholody limit) totalPatholody)

/-- Whether the text starts with the pattern, letter case of ASCII letters
ignored. -/
def startsWithIgnoringCase : List Char → List Char → Bool
  | [], _ => true
  | _ :: _, [] => false
  | p :: ps, t :: ts => lowerChar p == lowerChar t && startsWithIgnoringCase ps ts

/-- Whether the pattern occurs somewhere in the text, letter case of ASCII
letters ignored. -/
def occursIgnoringCase (pattern : List Char) : List Char → Bool
  | [] => pattern.isEmpty
  | t :: ts => startsWithIgnoringCase pattern (t :: ts) || occursIgnoringCase pattern ts

/-- The characters with a meaning of their own in a pattern. -/
def isSyntaxCharacter (c : Char) : Bool :=
  c.toNat ∈ [94, 36, 92, 46, 42, 43, 63, 40, 41, 91, 93, 123, 125, 124]

/-- The engine on patterns of ASCII characters that are no syntax characters,
where a pattern stands for itself; other patterns are refused. -/
def literalEngine : RegExpEngine :=
  { accepts := fun value => value.toList.all (fun c => c.toNat < 128 && !isSyntaxCharacter c),
    test := fun value text => occursIgnoringCase value.toList text.toList }

/-- The claim's reading of a search: the term occurs in the text as a
substring, letter case ignored. -/
def ContainsIgnoringCase (term text : String) : Prop :=
  ∃ before after : List Char,
    text.toList.map lowerChar = before ++ term.toList.map lowerChar ++ after

/-! ## Vocabulary of the statements -/

/-- The conjunction of the five tests of line 26, all passed. -/
abbrev mandatoryPresent (body : CreateBody) : Prop :=
  truthy body.centerName = true ∧ truthy body.email = true
    ∧ truthy body.phoneNumber = true ∧ truthy body.address = true
    ∧ truthy body.password = true

/-- The order a sort in direction `dir` puts two keys in. -/
def inOrder (dir : Int) (m n : Nat) : Prop := if dir = 1 then m ≤ n else n ≤ m

/-- The reply of `getAllCustomers` as a function of the projected customers. -/
def getAllCustomersOfViews (q : ListQuery) (views : List CustomerView) :
    Reply (PageData CustomerView) :=
  let page := orDefault (parseInt q.page) (.int 1)
  let limit := orDefault (parseInt q.limit) (.int 10)
  let sortDir : Int := if q.sortOrder.map toLowerCase = some "asc" then 1 else -1
  match skipLimit ((page.sub (.int 1)).mul limit) limit
      (sortDocs CustomerView.createdAt sortDir views) with
  | none => .next (.thrown "skip or limit refused by the store")
  | some customers =>
    if customers.length = 0 then .sent 200 false "No Customers Found" .empty
    else .sent 200 true "Customers fetched successfully"
      (.page customers page (ceilQuotient views.length limit) views.length)

/-! ## Sample requests and stores -/

/-- An environment in which no collaborator raises. -/
def calmEnv : Env :=
  { hash := fun _ => "$2a$12$digest", adminOid := 100, centerOid := 200, now := 50,
    fails := fun _ => false }

/-- An environment in which only the building of the response raises. -/
def respondFailsEnv : Env :=
  { calmEnv with fails := fun step => step == Step.respond }

/-- The onboarding request of the scenario, with the given caller role. -/
def acmeRequest (role : Option String) : CreateRequest :=
  { admin := { role := role },
    body := { centerName := some "Acme Labs", email := some "a@x.com",
              phoneNumber := some "111", address := some "1 Main Street", labs := none,
              password := some "secret123", bookings := none, sampleCollection := none } }

/-- The store with no document. -/
def emptyStore : Store := { admins := [], centers := [], customers := [] }

/-- A superadmin account whose phone number is the one of the scenario. -/
def rootAdmin : Admin :=
  { _id := 1, name := "Root", email := "root@x.com", password := "$2a$12$root",
    role := "superadmin", avatar := none, isActive := true, phoneNumber := some "111",
    pathologyCenterId := none }

/-- A store whose only document is the superadmin account. -/
def rootOnlyStore : Store := { admins := [rootAdmin], centers := [], customers := [] }

/-- A store in which an admin account already has the e-mail of the scenario. -/
def takenEmailStore : Store :=
  { admins := [{ rootAdmin with email := "a@x.com", phoneNumber := none }], centers := [],
    customers := [] }

/-- A customer created at time `n`, with secrets of its own. -/
def sampleCustomer (n : Nat) : Customer :=
  { _id := n, fullName := "customer", email := "c@x.com", phoneNumber := "900",
    password := "$2a$12$customer", otp := some "4321", isBlocked := false, createdAt := n }

/-- A store with the twelve customers created at times 0 to 11. -/
def twelveCustomers : Store :=
  { admins := [], centers := [], customers := (List.range 12).map sampleCustomer }

/-- The query `page=2&limit=5` of the scenario. -/
def pageTwoOfFive : ListQuery := { page := some "2", limit := some "5", sortOrder := none }

/-- The query `page=1&limit=1000...0`, the limit being 1 followed by 309
zeros. -/
def hugeLimit : ListQuery :=
  { page := some "1",
    limit := some (String.mk (Char.ofNat 49 :: List.replicate 309 (Char.ofNat 48))),
    sortOrder := none }

/-- The query `sortOrder=ASC`, in capitals. -/
def capitalAsc : ListQuery := { page := none, limit := none, sortOrder := some "ASC" }

/-- A store with the two customers created at times 0 and 1. -/
def twoCustomers : Store :=
  { admins := [], centers := [], customers := (List.range 2).map sampleCustomer }

/-- A pathology center created at time `n`. -/
def sampleCenter (n : Nat) : PathologyCenter :=
  { _id := n, centerName := "City Lab", email := "desk@x.com", phoneNumber := "555",
    address := "2 High Street", labs := none, bookings := [], sampleCollection := [],
    adminId := none, createdAt := n }

/-- A store with the `k` pathology centers created at times 0 to `k - 1`. -/
def centersStore (k : Nat) : Store :=
  { admins := [], centers := (List.range k).map sampleCenter, customers := [] }

/-- The search `value=lab&page=2&limit=5`. -/
def labPageTwo : SearchQuery := { value := some "lab", page := some "2", limit := some "5" }

/-- The search `value=lab`. -/
def labSearch : SearchQuery := { value := some "lab", page := none, limit := none }

/-- A store with one pathology center and its admin, whose password hash is
`digest`. -/
def linkedStore (digest : String) : Store :=
  { admins := [{ _id := 100, name := "City Lab", email := "desk@x.com", password := digest,
                 role := "pathology", avatar := none, isActive := true, phoneNumber := none,
                 pathologyCenterId := some 0 }],
    centers := [{ sampleCenter 0 with adminId := some 100 }],
    customers := [] }

/-- The query string with no parameter. -/
def plainQuery : ListQuery := { page := none, limit := none, sortOrder := none }

/-- An admin with its password taken away: what two stores that differ only
in admin passwords agree on. -/
def Admin.withoutPassword (a : Admin) : AdminObject := { a.toObject with password := none }

/-- The customer with the negation of its `isBlocked` flag. -/
def Customer.flipped (c : Customer) : Customer := { c with isBlocked := !c.isBlocked }

/-! ## Theorems: createPathologyCenter -/

theorem truthy_eq_true {v : Option String} (h : truthy v = true) :
    ∃ s, v = some s ∧ s ≠ "" := by
  cases v with
  | none => simp [truthy] at h
  | some s => exact ⟨s, rfl, by simpa [truthy] using h⟩

theorem find?_isSome_of_mem {α : Type} {p : α → Bool} {l : List α} {a : α}
    (ha : a ∈ l) (hp : p a = true) : (l.find? p).isSome = true := by
  rw [List.find?_isSome]
  exact ⟨a, ha, hp⟩

theorem find?_eq_none_of_forall {α : Type} {p : α → Bool} {l : List α}
    (h : ∀ a ∈ l, p a = false) : l.find? p = none := by
  rw [List.find?_eq_none]
  intro a ha
  simp [h a ha]

theorem saveDoc_append_fresh {α : Type} (ident : α → ObjectId) (oid : ObjectId)
    (doc old : α) (l : List α) (hfresh : ∀ a ∈ l, ident a ≠ oid) (hold : ident old = oid) :
    saveDoc ident oid doc (l ++ [old]) = l ++ [doc] := by
  induction l with
  | nil => simp [saveDoc, hold]
  | cons a rest ih =>
    have ha : ident a ≠ oid := hfresh a (List.mem_cons_self a rest)
    have hrest : ∀ b ∈ rest, ident b ≠ oid := fun b hb => hfresh b (List.mem_cons_of_mem a hb)
    simp [saveDoc, ha, ih hrest]

/-- C3: a caller whose role is not exactly "superadmin" (a missing role
included) gets the 403 error whatever the body is; no call is made on the
session API (no session is started) and the store is the one it was. -/
theorem createPathologyCenter_forbidden (env : Env) (req : CreateRequest) (db : Store)
    (hrole : req.admin.role ≠ some "superadmin") :
    (createPathologyCenter env req db).reply
        = .next (.custom "Only superadmin can create a pathology center" 403)
      ∧ (createPathologyCenter env req db).reply.status = some 403
      ∧ (createPathologyCenter env req db).events = []
      ∧ (createPathologyCenter env req db).store = db := by
  have h : (req.admin.role != some "superadmin") = true := by simpa using hrole
  simp [createPathologyCenter, h, Reply.status]

theorem createPathologyCenter_forbidden_witness :
    (acmeRequest none).admin.role ≠ some "superadmin"
      ∧ (createPathologyCenter respondFailsEnv (acmeRequest none) rootOnlyStore).reply.status
          = some 403
      ∧ (createPathologyCenter respondFailsEnv (acmeRequest none) rootOnlyStore).events = []
      ∧ (createPathologyCenter respondFailsEnv (acmeRequest none) rootOnlyStore).store
          = rootOnlyStore :=
  ⟨by decide,
    (createPathologyCenter_forbidden respondFailsEnv (acmeRequest none) rootOnlyStore
      (by decide)).2⟩

theorem createPathologyCenter_run (env : Env) (req : CreateRequest) (db : Store)
    (hrole : req.admin.role = some "superadmin") (hfields : mandatoryPresent req.body)
    (hsession : env.fails Step.startSession = false) :
    createPathologyCenter env req db
      = createFinish (createTry env (req.body.centerName.getD "") (req.body.email.getD "")
          (req.body.phoneNumber.getD "") (req.body.address.getD "")
          (req.body.password.getD "") req.body
          { txn := .idle, store := db, view := db, events := [Event.startSession] }) := by
  obtain ⟨h1, h2, h3, h4, h5⟩ := hfields
  have h0 : truthy (some "superadmin") = true := by decide
  simp [createPathologyCenter, hrole, h0, h1, h2, h3, h4, h5, hsession]

/-- C1, amended: with a superadmin caller, all mandatory fields present and
no failure of the store up to the uniqueness reads, whenever the e-mail or
the phone number of the request is that of a stored PathologyCenter, or the
e-mail of the request is that of a stored Admin, the reply is the 400
"Email or phone already exists" error and the store is the one it was. -/
theorem createPathologyCenter_conflict (env : Env) (req : CreateRequest) (db : Store)
    (hrole : req.admin.role = some "superadmin") (hfields : mandatoryPresent req.body)
    (hcalm : env.fails Step.startSession = false ∧ env.fails Step.startTransaction = false
      ∧ env.fails Step.findCenter = false ∧ env.fails Step.findAdmin = false)
    (hdup : (∃ c ∈ db.centers,
          some c.email = req.body.email ∨ some c.phoneNumber = req.body.phoneNumber)
        ∨ ∃ a ∈ db.admins, some a.email = req.body.email) :
    (createPathologyCenter env req db).reply
        = .next (.custom "Email or phone already exists" 400)
      ∧ (createPathologyCenter env req db).reply.status = some 400
      ∧ (createPathologyCenter env req db).store = db := by
  obtain ⟨hs, ht, hfc, hfa⟩ := hcalm
  rw [createPathologyCenter_run env req db hrole hfields hs]
  obtain ⟨-, he, hp, -, -⟩ := hfields
  obtain ⟨email, hemail, -⟩ := truthy_eq_true he
  obtain ⟨phone, hphone, -⟩ := truthy_eq_true hp
  have hfound : ((findCenterByEmailOrPhone db email phone).isSome
      || (findAdminByEmail db email).isSome) = true := by
    rcases hdup with ⟨c, hc, hce⟩ | ⟨a, ha, hae⟩
    · have : (findCenterByEmailOrPhone db email phone).isSome = true := by
        apply find?_isSome_of_mem hc
        rw [hemail, hphone] at hce
        rcases hce with h | h
        · simp [Option.some.inj h]
        · simp [Option.some.inj h]
      simp [this]
    · have : (findAdminByEmail db email).isSome = true := by
        apply find?_isSome_of_mem ha
        rw [hemail] at hae
        simp [Option.some.inj hae]
      simp [this]
  simp only [hemail, hphone, Option.getD_some]
  simp only [createTry, ht, hfc, hfa, hfound]
  simp [createFinish, Reply.status]

theorem createPathologyCenter_conflict_witness :
    (createPathologyCenter calmEnv (acmeRequest (some "superadmin")) takenEmailStore).reply
        = .next (.custom "Email or phone already exists" 400)
      ∧ (createPathologyCenter calmEnv (acmeRequest (some "superadmin"))
          takenEmailStore).reply.status = some 400
      ∧ (createPathologyCenter calmEnv (acmeRequest (some "superadmin")) takenEmailStore).store
          = takenEmailStore :=
  createPathologyCenter_conflict calmEnv (acmeRequest (some "superadmin")) takenEmailStore
    (by decide) (by decide) (by decide) (by decide)

/-- C1 as stated fails: the phone number of the request is carried by a stored
Admin, the store raises no error, and yet the reply is the 201 success and
the store has one more Admin and one more PathologyCenter. -/
theorem createPathologyCenter_admin_phone_counterexample :
    (acmeRequest (some "superadmin")).admin.role = some "superadmin"
      ∧ mandatoryPresent (acmeRequest (some "superadmin")).body
      ∧ (∃ a ∈ rootOnlyStore.admins,
          a.phoneNumber = (acmeRequest (some "superadmin")).body.phoneNumber)
      ∧ (createPathologyCenter calmEnv (acmeRequest (some "superadmin"))
          rootOnlyStore).reply.status = some 201
      ∧ (createPathologyCenter calmEnv (acmeRequest (some "superadmin"))
          rootOnlyStore).store.admins.length = rootOnlyStore.admins.length + 1
      ∧ (createPathologyCenter calmEnv (acmeRequest (some "superadmin"))
          rootOnlyStore).store.centers.length = rootOnlyStore.centers.length + 1 := by
  refine ⟨by decide, by decide, by decide, by decide, by decide, by decide⟩

/-- C2: with a superadmin caller, all mandatory fields present, an e-mail and
a phone number that no stored PathologyCenter has and an e-mail that no
stored Admin has, no failure of a collaborator and a fresh identifier for
the new admin, the store gains exactly one Admin, of role "pathology", and
exactly one PathologyCenter; the center refers to the admin and the admin to
the center; the reply has status 201 and its admin object has no password. -/
theorem createPathologyCenter_created (env : Env) (req : CreateRequest) (db : Store)
    (hrole : req.admin.role = some "superadmin") (hfields : mandatoryPresent req.body)
    (hcalm : ∀ step, env.fails step = false)
    (hunused : (∀ c ∈ db.centers,
          some c.email ≠ req.body.email ∧ some c.phoneNumber ≠ req.body.phoneNumber)
        ∧ ∀ a ∈ db.admins, some a.email ≠ req.body.email)
    (hfresh : ∀ a ∈ db.admins, a._id ≠ env.adminOid) :
    ∃ (newAdmin : Admin) (newCenter : PathologyCenter) (sanitizedAdmin : AdminObject),
      (createPathologyCenter env req db).store
          = { admins := db.admins ++ [newAdmin], centers := db.centers ++ [newCenter],
              customers := db.customers }
        ∧ newAdmin.role = "pathology"
        ∧ newCenter.adminId = some newAdmin._id
        ∧ newAdmin.pathologyCenterId = some newCenter._id
        ∧ (createPathologyCenter env req db).reply
            = .sent 201 true "Pathology Center and Admin created successfully"
                { admin := sanitizedAdmin, pathologyCenter := newCenter }
        ∧ sanitizedAdmin.password = none
        ∧ sanitizedAdmin = { newAdmin.toObject with password := none } := by
  rw [createPathologyCenter_run env req db hrole hfields (hcalm _)]
  obtain ⟨-, he, hp, -, -⟩ := hfields
  obtain ⟨email, hemail, -⟩ := truthy_eq_true he
  obtain ⟨phone, hphone, -⟩ := truthy_eq_true hp
  obtain ⟨hcenters, hadmins⟩ := hunused
  rw [hemail] at hcenters hadmins
  rw [hphone] at hcenters
  have hnoCenter : findCenterByEmailOrPhone db email phone = none := by
    apply find?_eq_none_of_forall
    intro c hc
    obtain ⟨h1, h2⟩ := hcenters c hc
    have h1 : c.email ≠ email := fun h => h1 (by rw [h])
    have h2 : c.phoneNumber ≠ phone := fun h => h2 (by rw [h])
    simp [h1, h2]
  have hnoAdmin : findAdminByEmail db email = none := by
    apply find?_eq_none_of_forall
    intro a ha
    have h1 : a.email ≠ email := fun h => hadmins a ha (by rw [h])
    simp [h1]
  simp only [hemail, hphone, Option.getD_some]
  simp only [createTry, hcalm, hnoCenter, hnoAdmin]
  rw [saveDoc_append_fresh Admin._id env.adminOid _ _ db.admins hfresh]
  · exact ⟨_, _, _, rfl, rfl, rfl, rfl, rfl, rfl, rfl⟩
  · rfl

theorem createPathologyCenter_created_witness :
    ∃ (newAdmin : Admin) (newCenter : PathologyCenter) (sanitizedAdmin : AdminObject),
      (createPathologyCenter calmEnv (acmeRequest (some "superadmin")) emptyStore).store
          = { admins := emptyStore.admins ++ [newAdmin],
              centers := emptyStore.centers ++ [newCenter],
              customers := emptyStore.customers }
        ∧ newAdmin.role = "pathology"
        ∧ newCenter.adminId = some newAdmin._id
        ∧ newAdmin.pathologyCenterId = some newCenter._id
        ∧ (createPathologyCenter calmEnv (acmeRequest (some "superadmin")) emptyStore).reply
            = .sent 201 true "Pathology Center and Admin created successfully"
                { admin := sanitizedAdmin, pathologyCenter := newCenter }
        ∧ sanitizedAdmin.password = none
        ∧ sanitizedAdmin = { newAdmin.toObject with password := none } :=
  createPathologyCenter_created calmEnv (acmeRequest (some "superadmin")) emptyStore
    (by decide) (by decide) (fun _ => rfl) (by decide) (by decide)

theorem createFinish_released (r : Except Err (Reply CreatedData) × Session) :
    (createFinish r).events.getLast? = some Event.endSession := by
  obtain ⟨r, s⟩ := r
  cases r with
  | ok reply => simp [createFinish]
  | error e => cases h : s.txn <;> simp [createFinish, h]

/-- On every path of `createPathologyCenter` that has started a session, the
last call made on the session is `endSession`. -/
theorem createPathologyCenter_session_released (env : Env) (req : CreateRequest)
    (db : Store) (hrole : req.admin.role = some "superadmin")
    (hfields : mandatoryPresent req.body) (hsession : env.fails Step.startSession = false) :
    (createPathologyCenter env req db).events.getLast? = some Event.endSession := by
  rw [createPathologyCenter_run env req db hrole hfields hsession]
  exact createFinish_released _

/-- A failure at any step from the uniqueness reads to the save of the
back-reference leaves the transaction aborted and the store as it was. -/
theorem createPathologyCenter_failure_before_commit (env : Env) (req : CreateRequest)
    (db : Store) (hrole : req.admin.role = some "superadmin")
    (hfields : mandatoryPresent req.body) (hsession : env.fails Step.startSession = false)
    (hstart : env.fails Step.startTransaction = false)
    (hfail : ∃ step ∈ [Step.findCenter, Step.findAdmin, Step.hash, Step.createAdmin,
      Step.createCenter, Step.saveAdmin], env.fails step = true) :
    (createPathologyCenter env req db).store = db
      ∧ (createPathologyCenter env req db).txn = TxnState.aborted
      ∧ Event.abortTransaction ∈ (createPathologyCenter env req db).events := by
  rw [createPathologyCenter_run env req db hrole hfields hsession]
  simp only [List.mem_cons, List.mem_singleton, List.not_mem_nil, or_false, exists_eq_or_imp,
    exists_eq_left] at hfail
  by_cases h1 : env.fails Step.findCenter = true
  · simp [createTry, createFinish, hstart, h1]
  by_cases h2 : env.fails Step.findAdmin = true
  · simp [createTry, createFinish, hstart, h1, h2]
  by_cases hd : ((findCenterByEmailOrPhone db (req.body.email.getD "")
      (req.body.phoneNumber.getD "")).isSome
      || (findAdminByEmail db (req.body.email.getD "")).isSome) = true
  · simp only [createTry, hstart, h1, h2, hd]
    simp [createFinish]
  by_cases h3 : env.fails Step.hash = true
  · simp only [createTry, hstart, h1, h2, hd, h3]
    simp [createFinish]
  by_cases h4 : env.fails Step.createAdmin = true
  · simp only [createTry, hstart, h1, h2, hd, h3, h4]
    simp [createFinish]
  by_cases h5 : env.fails Step.createCenter = true
  · simp only [createTry, hstart, h1, h2, hd, h3, h4, h5]
    simp [createFinish]
  by_cases h6 : env.fails Step.saveAdmin = true
  · simp only [createTry, hstart, h1, h2, hd, h3, h4, h5, h6]
    simp [createFinish]
  · simp_all

/-- A commit that raises leaves the store as it was; the driver then holds
the transaction as committed, so the `abortTransaction` of the `catch` block
raises in its turn. -/
theorem createPathologyCenter_commit_failure (env : Env) (req : CreateRequest)
    (db : Store) (hrole : req.admin.role = some "superadmin")
    (hfields : mandatoryPresent req.body)
    (hcalm : ∀ step, step ≠ Step.commitTransaction → env.fails step = false)
    (hcommit : env.fails Step.commitTransaction = true)
    (hunused : findCenterByEmailOrPhone db (req.body.email.getD "")
        (req.body.phoneNumber.getD "") = none
      ∧ findAdminByEmail db (req.body.email.getD "") = none) :
    (createPathologyCenter env req db).store = db
      ∧ (createPathologyCenter env req db).txn = TxnState.committed
      ∧ (createPathologyCenter env req db).reply
        = .next (.thrown "Cannot call abortTransaction after calling commitTransaction") := by
  rw [createPathologyCenter_run env req db hrole hfields (hcalm _ (by decide))]
  simp only [createTry, hcalm Step.startTransaction (by decide),
    hcalm Step.findCenter (by decide), hcalm Step.findAdmin (by decide),
    hcalm Step.hash (by decide), hcalm Step.createAdmin (by decide),
    hcalm Step.createCenter (by decide), hcalm Step.saveAdmin (by decide), hcommit,
    hunused.1, hunused.2]
  simp [createFinish]

/-- C4 fails at the last step: when the building of the response raises, the
transaction is already committed; `abortTransaction` cannot undo it, so the
created Admin and PathologyCenter persist, although `endSession` is called. -/
theorem createPathologyCenter_respond_failure_persists :
    (createPathologyCenter respondFailsEnv (acmeRequest (some "superadmin")) emptyStore).txn
        = TxnState.committed
      ∧ (createPathologyCenter respondFailsEnv (acmeRequest (some "superadmin"))
          emptyStore).store.admins.length = 1
      ∧ (createPathologyCenter respondFailsEnv (acmeRequest (some "superadmin"))
          emptyStore).store.centers.length = 1
      ∧ (createPathologyCenter respondFailsEnv (acmeRequest (some "superadmin"))
          emptyStore).events
        = [Event.startSession, Event.startTransaction, Event.commitTransaction,
            Event.abortTransaction, Event.endSession]
      ∧ (createPathologyCenter respondFailsEnv (acmeRequest (some "superadmin"))
          emptyStore).reply
        = .next (.thrown "Cannot call abortTransaction after calling commitTransaction") := by
  refine ⟨by decide, by decide, by decide, by decide, by decide⟩

/-! ## Theorems: paging and sorting -/

theorem ceilDiv_eq_ceil (total : Nat) (limit : Nat) :
    ceilDiv (total : Int) (limit : Int) = ⌈(total : ℚ) / (limit : ℚ)⌉ := by
  unfold ceilDiv
  rw [Int.fdiv_eq_ediv _ (Int.natCast_nonneg limit)]
  have h := Rat.floor_intCast_div_natCast (-(total : Int)) limit
  rw [← h]
  have h2 : ((-(total : Int) : Int) : ℚ) / (limit : ℚ) = -((total : ℚ) / (limit : ℚ)) := by
    push_cast
    ring
  rw [h2, Int.floor_neg, neg_neg]

theorem page_le_ceil_iff (total page limit : Nat) (hp : 0 < page) (hl : 0 < limit) :
    (page : Int) ≤ ⌈(total : ℚ) / (limit : ℚ)⌉ ↔ (page - 1) * limit < total := by
  have hlq : (0 : ℚ) < (limit : ℚ) := by exact_mod_cast hl
  obtain ⟨k, rfl⟩ : ∃ k, page = k + 1 := ⟨page - 1, by omega⟩
  rw [show ((k + 1 : Nat) : Int) = (k : Int) + 1 by push_cast; ring, Int.add_one_le_iff,
    Int.lt_ceil, lt_div_iff₀ hlq]
  simp only [Nat.add_sub_cancel]
  constructor
  · intro h
    exact_mod_cast h
  · intro h
    exact_mod_cast h

theorem length_insertSorted {α : Type} (key : α → Nat) (dir : Int) (a : α) (l : List α) :
    (insertSorted key dir a l).length = l.length + 1 := by
  induction l with
  | nil => rfl
  | cons b rest ih =>
    by_cases h : (if dir = 1 then key a ≤ key b else key b ≤ key a)
    · simp [insertSorted, h]
    · simp [insertSorted, h, ih]

theorem length_sortDocs {α : Type} (key : α → Nat) (dir : Int) (l : List α) :
    (sortDocs key dir l).length = l.length := by
  induction l with
  | nil => rfl
  | cons a rest ih =>
    have : sortDocs key dir (a :: rest) = insertSorted key dir a (sortDocs key dir rest) := rfl
    rw [this, length_insertSorted, ih, List.length_cons]

theorem JsNumber.ofInt_natCast (n : Nat) (h : n < 2 ^ 53) :
    JsNumber.ofInt (n : Int) = .int (n : Int) := by
  have hneg : ¬ ((n : Int) < 0) := by omega
  simp only [JsNumber.ofInt, Int.natAbs_ofNat, roundToDouble, if_pos h, if_neg hneg]

/-- C5, amended: for a store of `total` customers and positive integers
`page` and `limit` read from the query, with `total`, `limit` and
`(page - 1) * limit` below `2^53` (where JavaScript numbers are exact), a
page within `ceil(total / limit)` is answered with status 200, success true,
`min(limit, total - (page - 1) * limit)` customers, `currentPage = page`,
`totalPages = ceil(total / limit)` and `total`; a page beyond
`ceil(total / limit)` is answered with status 200, success false and the
empty list. -/
theorem getAllCustomers_pagination (q : ListQuery) (db : Store) (page limit : Nat)
    (hpage : parseInt q.page = .int (page : Int))
    (hlimit : parseInt q.limit = .int (limit : Int))
    (hp : 0 < page) (hl : 0 < limit)
    (hexact : (page - 1) * limit < 2 ^ 53 ∧ limit < 2 ^ 53 ∧ db.customers.length < 2 ^ 53) :
    ((page : Int) ≤ ⌈(db.customers.length : ℚ) / (limit : ℚ)⌉ →
        ∃ customers : List CustomerView,
          getAllCustomers q db
              = .sent 200 true "Customers fetched successfully"
                  (.page customers (.int (page : Int))
                    (.int ⌈(db.customers.length : ℚ) / (limit : ℚ)⌉) db.customers.length)
            ∧ customers.length = min limit (db.customers.length - (page - 1) * limit))
      ∧ (⌈(db.customers.length : ℚ) / (limit : ℚ)⌉ < (page : Int) →
          getAllCustomers q db = .sent 200 false "No Customers Found" .empty) := by
  obtain ⟨hskipSafe, hlimitSafe, -⟩ := hexact
  have hp0 : (page : Int) ≠ 0 := by exact_mod_cast hp.ne.symm
  have hl0 : (limit : Int) ≠ 0 := by exact_mod_cast hl.ne.symm
  have hpred : (page - 1 : Nat) < 2 ^ 53 := by
    calc page - 1 = (page - 1) * 1 := (Nat.mul_one _).symm
      _ ≤ (page - 1) * limit := Nat.mul_le_mul_left _ hl
      _ < 2 ^ 53 := hskipSafe
  have hsub : (JsNumber.int (page : Int)).sub (.int 1) = .int ((page - 1 : Nat) : Int) := by
    have h1 : (page : Int) - 1 = ((page - 1 : Nat) : Int) := by omega
    simp only [JsNumber.sub, h1, JsNumber.ofInt_natCast _ hpred]
  have hmul : (JsNumber.int ((page - 1 : Nat) : Int)).mul (.int (limit : Int))
      = .int (((page - 1) * limit : Nat) : Int) := by
    have h1 : ((page - 1 : Nat) : Int) * (limit : Int) = (((page - 1) * limit : Nat) : Int) := by
      push_cast
      rfl
    simp only [JsNumber.mul, h1, JsNumber.ofInt_natCast _ hskipSafe]
  have hrun : ∀ dir : Int,
      skipLimit (.int (((page - 1) * limit : Nat) : Int)) (.int (limit : Int))
          (sortDocs Customer.createdAt dir db.customers)
        = some (((sortDocs Customer.createdAt dir db.customers).drop
            ((page - 1) * limit)).take limit) := by
    intro dir
    generalize (page - 1) * limit = k at hskipSafe
    have hk : k < 9223372036854775808 := lt_of_lt_of_le hskipSafe (by norm_num)
    have hlim : limit < 9223372036854775808 := lt_of_lt_of_le hlimitSafe (by norm_num)
    simp [skipLimit, hk, hlim, hl0]
  have hlen : ∀ dir : Int,
      ((((sortDocs Customer.createdAt dir db.customers).drop
        ((page - 1) * limit)).take limit).map Customer.select).length
        = min limit (db.customers.length - (page - 1) * limit) := by
    intro dir
    simp [length_sortDocs]
  have hstart : ∀ dir : Int,
      skipLimit (((orDefault (parseInt q.page) (.int 1)).sub (.int 1)).mul
          (orDefault (parseInt q.limit) (.int 10)))
          (orDefault (parseInt q.limit) (.int 10))
          (sortDocs Customer.createdAt dir db.customers)
        = some (((sortDocs Customer.createdAt dir db.customers).drop
            ((page - 1) * limit)).take limit) := by
    intro dir
    simp only [hpage, hlimit, orDefault, hp0, hl0, if_false, hsub, hmul, hrun]
  have hpages : ceilQuotient db.customers.length (orDefault (parseInt q.limit) (.int 10))
      = .int ⌈(db.customers.length : ℚ) / (limit : ℚ)⌉ := by
    simp only [hlimit, orDefault, hl0, if_false, ceilQuotient, ceilDiv_eq_ceil]
  have hcurrent : orDefault (parseInt q.page) (.int 1) = .int (page : Int) := by
    simp only [hpage, orDefault, hp0, if_false]
  constructor
  · intro hwithin
    have hlt := (page_le_ceil_iff db.customers.length page limit hp hl).1 hwithin
    have hne : min limit (db.customers.length - (page - 1) * limit) ≠ 0 := by
      have : 0 < db.customers.length - (page - 1) * limit := by omega
      omega
    refine ⟨_, ?_, hlen (if q.sortOrder.map toLowerCase = some "asc" then 1 else -1)⟩
    simp only [getAllCustomers, hstart]
    rw [if_neg (by rw [hlen]; exact hne), hpages, hcurrent]
  · intro hbeyond
    have hge : ¬ (page - 1) * limit < db.customers.length := by
      intro h
      exact absurd ((page_le_ceil_iff db.customers.length page limit hp hl).2 h)
        (not_le.2 hbeyond)
    have hzero : min limit (db.customers.length - (page - 1) * limit) = 0 := by
      have : db.customers.length - (page - 1) * limit = 0 := by omega
      simp [this]
    simp only [getAllCustomers, hstart]
    rw [if_pos (by rw [hlen]; exact hzero)]

theorem getAllCustomers_pagination_witness :
    ((2 : Nat) : Int) ≤ ⌈(twelveCustomers.customers.length : ℚ) / ((5 : Nat) : ℚ)⌉
      ∧ ∃ customers : List CustomerView,
          getAllCustomers pageTwoOfFive twelveCustomers
              = .sent 200 true "Customers fetched successfully"
                  (.page customers 2 3 12)
            ∧ customers.length = 5 := by
  have hceil : ⌈(twelveCustomers.customers.length : ℚ) / ((5 : Nat) : ℚ)⌉ = 3 := by
    rw [← ceilDiv_eq_ceil]
    decide
  have h := (getAllCustomers_pagination pageTwoOfFive twelveCustomers 2 5 (by decide)
    (by decide) (by decide) (by decide) (by decide)).1
  rw [hceil] at h
  obtain ⟨customers, h1, h2⟩ := h (by decide)
  exact ⟨by rw [hceil]; decide, customers, h1, h2⟩

set_option exponentiation.threshold 1100 in
set_option maxRecDepth 100000 in
/-- C5 as stated fails: the limit 1 followed by 309 zeros is a positive
integer and page 1 is within `ceil(12 / limit) = 1`, yet `parseInt` reads the
limit as `Infinity`, `Math.ceil(12 / Infinity)` is 0 and not 1, the skip is
`0 * Infinity = NaN`, and the reply is not the success the claim has. -/
theorem getAllCustomers_huge_limit_counterexample :
    readDigits 10 none (hugeLimit.limit.getD "").toList = some (10 ^ 309)
      ∧ parseInt hugeLimit.page = .int 1
      ∧ (1 : Int) ≤ ceilDiv (twelveCustomers.customers.length : Int) ((10 ^ 309 : Nat) : Int)
      ∧ parseInt hugeLimit.limit = .infinity false
      ∧ ceilQuotient twelveCustomers.customers.length (parseInt hugeLimit.limit) = .int 0
      ∧ ((parseInt hugeLimit.page).sub (.int 1)).mul (parseInt hugeLimit.limit) = .nan
      ∧ getAllCustomers hugeLimit twelveCustomers
          = .next (.thrown "skip or limit refused by the store") := by
  refine ⟨by decide, by decide, by decide, by decide, by decide, by decide, by decide⟩

theorem inOrder_total (dir : Int) (m n : Nat) : inOrder dir m n ∨ inOrder dir n m := by
  unfold inOrder
  split <;> omega

theorem inOrder_trans {dir : Int} {m n k : Nat} (h1 : inOrder dir m n)
    (h2 : inOrder dir n k) : inOrder dir m k := by
  unfold inOrder at *
  split at h1 <;> simp_all <;> omega

theorem mem_insertSorted {α : Type} (key : α → Nat) (dir : Int) (a x : α) (l : List α) :
    x ∈ insertSorted key dir a l ↔ x = a ∨ x ∈ l := by
  induction l with
  | nil => simp [insertSorted]
  | cons b rest ih =>
    by_cases h : (if dir = 1 then key a ≤ key b else key b ≤ key a)
    · simp [insertSorted, h]
    · simp only [insertSorted, h, if_false, List.mem_cons, ih]
      tauto

theorem mem_sortDocs {α : Type} (key : α → Nat) (dir : Int) (x : α) (l : List α) :
    x ∈ sortDocs key dir l ↔ x ∈ l := by
  induction l with
  | nil => simp [sortDocs]
  | cons a rest ih =>
    have : sortDocs key dir (a :: rest) = insertSorted key dir a (sortDocs key dir rest) := rfl
    rw [this, mem_insertSorted, ih, List.mem_cons]

theorem pairwise_insertSorted {α : Type} (key : α → Nat) (dir : Int) (a : α) (l : List α)
    (h : l.Pairwise (fun x y => inOrder dir (key x) (key y))) :
    (insertSorted key dir a l).Pairwise (fun x y => inOrder dir (key x) (key y)) := by
  induction l with
  | nil => simp [insertSorted]
  | cons b rest ih =>
    rw [List.pairwise_cons] at h
    obtain ⟨hb, hrest⟩ := h
    by_cases hab : (if dir = 1 then key a ≤ key b else key b ≤ key a)
    · have hab2 : inOrder dir (key a) (key b) := hab
      simp only [insertSorted, hab, if_true]
      refine List.pairwise_cons.2 ⟨?_, List.pairwise_cons.2 ⟨hb, hrest⟩⟩
      intro y hy
      rcases List.mem_cons.1 hy with rfl | hy
      · exact hab2
      · exact inOrder_trans hab2 (hb y hy)
    · have hba : inOrder dir (key b) (key a) := by
        rcases inOrder_total dir (key a) (key b) with h | h
        · exact absurd h hab
        · exact h
      simp only [insertSorted, hab, if_false]
      refine List.pairwise_cons.2 ⟨?_, ih hrest⟩
      intro y hy
      rcases (mem_insertSorted key dir a y rest).1 hy with rfl | hy
      · exact hba
      · exact hb y hy

theorem pairwise_sortDocs {α : Type} (key : α → Nat) (dir : Int) (l : List α) :
    (sortDocs key dir l).Pairwise (fun x y => inOrder dir (key x) (key y)) := by
  induction l with
  | nil => simp [sortDocs]
  | cons a rest ih => exact pairwise_insertSorted key dir a _ ih

theorem skipLimit_sublist {α : Type} {skip limit : JsNumber} {docs found : List α}
    (h : skipLimit skip limit docs = some found) : found.Sublist docs := by
  unfold skipLimit at h
  split at h
  · split at h
    · exact absurd h (by simp)
    · split at h
      · cases h
        exact List.drop_sublist _ _
      · cases h
        exact (List.take_sublist _ _).trans (List.drop_sublist _ _)
  · exact absurd h (by simp)

theorem items_getAllCustomers (q : ListQuery) (db : Store) :
    ∃ found : List Customer,
      found.Sublist (sortDocs Customer.createdAt
        (if q.sortOrder.map toLowerCase = some "asc" then 1 else -1) db.customers)
      ∧ (getAllCustomers q db).items = found.map Customer.select := by
  unfold getAllCustomers
  cases h : skipLimit (((orDefault (parseInt q.page) (.int 1)).sub (.int 1)).mul
        (orDefault (parseInt q.limit) (.int 10)))
      (orDefault (parseInt q.limit) (.int 10))
      (sortDocs Customer.createdAt
        (if q.sortOrder.map toLowerCase = some "asc" then 1 else -1) db.customers) with
  | none => exact ⟨[], List.nil_sublist _, by simp only [h, Reply.items, List.map_nil]⟩
  | some found =>
    by_cases hlen : (found.map Customer.select).length = 0
    · have hnil : found = [] := by simpa using hlen
      subst hnil
      exact ⟨[], List.nil_sublist _, by
        simp only [h, List.map_nil, List.length_nil, if_true, Reply.items]⟩
    · exact ⟨found, skipLimit_sublist h, by simp only [h, hlen, if_false, Reply.items]⟩

/-- C7, amended: when `sortOrder`, put in lower case, is "asc" (so for
"asc", "ASC", "Asc" and the like) the returned customers are in ascending
order of creation time; for every other value, an absent one included, they
are in descending order of creation time. -/
theorem getAllCustomers_sorted (q : ListQuery) (db : Store) :
    (q.sortOrder.map toLowerCase = some "asc" →
        (getAllCustomers q db).items.Pairwise (fun a b => a.createdAt ≤ b.createdAt))
      ∧ (q.sortOrder.map toLowerCase ≠ some "asc" →
        (getAllCustomers q db).items.Pairwise (fun a b => b.createdAt ≤ a.createdAt)) := by
  obtain ⟨found, hsub, hitems⟩ := items_getAllCustomers q db
  have hsorted := (pairwise_sortDocs Customer.createdAt
    (if q.sortOrder.map toLowerCase = some "asc" then 1 else -1) db.customers).sublist hsub
  simp only [hitems, List.pairwise_map]
  constructor
  · intro hasc
    simp only [hasc, if_true, inOrder] at hsorted
    exact hsorted
  · intro hdesc
    simp only [hdesc, if_false, inOrder] at hsorted
    have hne : ¬ ((-1 : Int) = 1) := by decide
    simp only [hne, if_false] at hsorted
    exact hsorted

theorem getAllCustomers_sorted_witness :
    capitalAsc.sortOrder.map toLowerCase = some "asc"
      ∧ (getAllCustomers capitalAsc twoCustomers).items.Pairwise
          (fun a b => a.createdAt ≤ b.createdAt) :=
  ⟨by decide, (getAllCustomers_sorted capitalAsc twoCustomers).1 (by decide)⟩

/-- C7 as stated fails: "ASC" is a value other than "asc", and the customers
come back in ascending, not descending, order of creation time. -/
theorem getAllCustomers_capital_asc_counterexample :
    capitalAsc.sortOrder ≠ some "asc"
      ∧ (getAllCustomers capitalAsc twoCustomers).items.map CustomerView.createdAt = [0, 1]
      ∧ ¬ (getAllCustomers capitalAsc twoCustomers).items.Pairwise
          (fun a b => b.createdAt ≤ a.createdAt) := by
  refine ⟨by decide, by decide, by decide⟩

/-! ## Theorems: BlockUnblockCustomer -/

theorem findById_ident {α : Type} {ident : α → ObjectId} {oid : ObjectId} {l : List α}
    {c : α} (h : findById ident oid l = some c) : ident c = oid := by
  have := List.find?_some h
  simpa using this

theorem findById_saveDoc_self {α : Type} (ident : α → ObjectId) (oid : ObjectId)
    (doc c : α) (l : List α) (hfound : findById ident oid l = some c)
    (hdoc : ident doc = oid) : findById ident oid (saveDoc ident oid doc l) = some doc := by
  induction l with
  | nil => simp [findById] at hfound
  | cons a rest ih =>
    by_cases ha : ident a = oid
    · simp [saveDoc, findById, ha, hdoc]
    · have hrest : findById ident oid rest = some c := by
        simpa [findById, List.find?_cons, ha] using hfound
      have := ih hrest
      simp only [findById] at this
      simp [saveDoc, findById, List.find?_cons, ha, this]

theorem findById_saveDoc_other {α : Type} (ident : α → ObjectId) (oid other : ObjectId)
    (doc : α) (l : List α) (hother : other ≠ oid) (hdoc : ident doc = oid) :
    findById ident other (saveDoc ident oid doc l) = findById ident other l := by
  induction l with
  | nil => rfl
  | cons a rest ih =>
    simp only [findById] at ih
    by_cases ha : ident a = oid
    · have h1 : (ident doc == other) = false := by
        simpa using fun h => hother (by rw [← h, hdoc])
      have h2 : (ident a == other) = false := by
        simpa using fun h => hother (by rw [← h, ha])
      simp only [saveDoc, findById, if_pos ha, List.find?_cons, h1, h2]
    · simp only [saveDoc, findById, if_neg ha, List.find?_cons, ih]

theorem length_saveDoc {α : Type} (ident : α → ObjectId) (oid : ObjectId) (doc : α)
    (l : List α) : (saveDoc ident oid doc l).length = l.length := by
  induction l with
  | nil => rfl
  | cons a rest ih =>
    by_cases ha : ident a = oid
    · simp [saveDoc, ha]
    · simp [saveDoc, ha, ih]

theorem getElem?_saveDoc {α : Type} (ident : α → ObjectId) (oid : ObjectId) (doc c : α)
    (l : List α) (hfound : findById ident oid l = some c) (i : Nat)
    (hi : l[i]? ≠ some c) : (saveDoc ident oid doc l)[i]? = l[i]? := by
  induction l generalizing i with
  | nil => rfl
  | cons a rest ih =>
    by_cases ha : ident a = oid
    · have hac : a = c := by simpa [findById, List.find?_cons, ha] using hfound
      cases i with
      | zero => simp [hac] at hi
      | succ j => simp [saveDoc, ha]
    · have hrest : findById ident oid rest = some c := by
        simpa [findById, List.find?_cons, ha] using hfound
      cases i with
      | zero => simp [saveDoc, ha]
      | succ j =>
        have hj : rest[j]? ≠ some c := by simpa using hi
        simpa [saveDoc, ha] using ih hrest j hj

theorem BlockUnblockCustomer_found (oid : ObjectId) (db : Store) (customer : Customer)
    (hfound : findById Customer._id oid db.customers = some customer) :
    (BlockUnblockCustomer (some oid) db).2
      = { db with customers := saveDoc Customer._id oid customer.flipped db.customers } := by
  cases hb : customer.isBlocked <;>
    simp [BlockUnblockCustomer, hfound, hb, Customer.flipped]

/-- C8: for a customer found under `customerId`, one call puts the negation
of its `isBlocked` in place and leaves every other stored document as it
was; a second call on the same `customerId` brings the customer back to what
it was; and for a `customerId` that no customer has, the reply is the 404
error and the store is the one it was. -/
theorem BlockUnblockCustomer_toggle (oid : ObjectId) (db : Store) :
    (∀ customer : Customer, findById Customer._id oid db.customers = some customer →
        findById Customer._id oid (BlockUnblockCustomer (some oid) db).2.customers
            = some { customer with isBlocked := !customer.isBlocked }
          ∧ (BlockUnblockCustomer (some oid) db).1.status = some 200
          ∧ (∀ i : Nat, db.customers[i]? ≠ some customer →
              (BlockUnblockCustomer (some oid) db).2.customers[i]? = db.customers[i]?)
          ∧ (∀ other : ObjectId, other ≠ oid →
              findById Customer._id other (BlockUnblockCustomer (some oid) db).2.customers
                = findById Customer._id other db.customers)
          ∧ (BlockUnblockCustomer (some oid) db).2.customers.length = db.customers.length
          ∧ (BlockUnblockCustomer (some oid) db).2.admins = db.admins
          ∧ (BlockUnblockCustomer (some oid) db).2.centers = db.centers
          ∧ findById Customer._id oid
              (BlockUnblockCustomer (some oid) (BlockUnblockCustomer (some oid) db).2).2.customers
            = some customer)
      ∧ (findById Customer._id oid db.customers = none →
          BlockUnblockCustomer (some oid) db
            = (.next (.custom "Customer not found" 404), db)) := by
  constructor
  · intro customer hfound
    have hid : customer._id = oid := findById_ident hfound
    have hflip : findById Customer._id oid
        (saveDoc Customer._id oid customer.flipped db.customers) = some customer.flipped :=
      findById_saveDoc_self Customer._id oid _ customer db.customers hfound hid
    have hstatus : (BlockUnblockCustomer (some oid) db).1.status = some 200 := by
      cases hb : customer.isBlocked <;> simp [BlockUnblockCustomer, hfound, hb, Reply.status]
    have hback : customer.flipped.flipped = customer := by
      cases customer
      simp [Customer.flipped]
    have honce := BlockUnblockCustomer_found oid db customer hfound
    have htwice := BlockUnblockCustomer_found oid (BlockUnblockCustomer (some oid) db).2
      customer.flipped (by rw [honce]; exact hflip)
    rw [htwice, honce]
    refine ⟨hflip, hstatus, ?_, ?_, ?_, rfl, rfl, ?_⟩
    · intro i hi
      exact getElem?_saveDoc Customer._id oid _ customer db.customers hfound i hi
    · intro other hother
      exact findById_saveDoc_other Customer._id oid other _ db.customers hother hid
    · exact length_saveDoc _ _ _ _
    · have := findById_saveDoc_self Customer._id oid customer.flipped.flipped
        customer.flipped (saveDoc Customer._id oid customer.flipped db.customers) hflip hid
      rw [hback] at this ⊢
      exact this
  · intro hnone
    simp [BlockUnblockCustomer, hnone]

theorem BlockUnblockCustomer_toggle_witness :
    findById Customer._id 1 twoCustomers.customers = some (sampleCustomer 1)
      ∧ findById Customer._id 1 (BlockUnblockCustomer (some 1) twoCustomers).2.customers
          = some { sampleCustomer 1 with isBlocked := !(sampleCustomer 1).isBlocked }
      ∧ findById Customer._id 1
          (BlockUnblockCustomer (some 1) (BlockUnblockCustomer (some 1) twoCustomers).2).2.customers
        = some (sampleCustomer 1)
      ∧ findById Customer._id 7 twoCustomers.customers = none
      ∧ BlockUnblockCustomer (some 7) twoCustomers
          = (.next (.custom "Customer not found" 404), twoCustomers) :=
  ⟨by decide,
    ((BlockUnblockCustomer_toggle 1 twoCustomers).1 (sampleCustomer 1) (by decide)).1,
    ((BlockUnblockCustomer_toggle 1 twoCustomers).1 (sampleCustomer 1)
      (by decide)).2.2.2.2.2.2.2,
    by decide, (BlockUnblockCustomer_toggle 7 twoCustomers).2 (by decide)⟩

/-! ## Theorems: secrets in the list replies -/

theorem map_insertSorted {α β : Type} (f : α → β) (key : α → Nat) (keyOf : β → Nat)
    (hkey : ∀ x, keyOf (f x) = key x) (dir : Int) (a : α) (l : List α) :
    (insertSorted key dir a l).map f = insertSorted keyOf dir (f a) (l.map f) := by
  induction l with
  | nil => rfl
  | cons b rest ih =>
    by_cases h : (if dir = 1 then key a ≤ key b else key b ≤ key a)
    · have h2 : (if dir = 1 then keyOf (f a) ≤ keyOf (f b) else keyOf (f b) ≤ keyOf (f a)) := by
        simpa only [hkey] using h
      simp only [insertSorted, List.map_cons, if_pos h, if_pos h2]
    · have h2 : ¬ (if dir = 1 then keyOf (f a) ≤ keyOf (f b)
          else keyOf (f b) ≤ keyOf (f a)) := by
        simpa only [hkey] using h
      simp only [insertSorted, List.map_cons, if_neg h, if_neg h2, ih]

theorem map_sortDocs {α β : Type} (f : α → β) (key : α → Nat) (keyOf : β → Nat)
    (hkey : ∀ x, keyOf (f x) = key x) (dir : Int) (l : List α) :
    (sortDocs key dir l).map f = sortDocs keyOf dir (l.map f) := by
  induction l with
  | nil => rfl
  | cons a rest ih =>
    have h1 : sortDocs key dir (a :: rest) = insertSorted key dir a (sortDocs key dir rest) := rfl
    have h2 : sortDocs keyOf dir ((a :: rest).map f)
        = insertSorted keyOf dir (f a) (sortDocs keyOf dir (rest.map f)) := rfl
    rw [h1, h2, map_insertSorted f key keyOf hkey, ih]

theorem map_skipLimit {α β : Type} (f : α → β) (skip limit : JsNumber) (docs : List α) :
    (skipLimit skip limit docs).map (List.map f) = skipLimit skip limit (docs.map f) := by
  unfold skipLimit
  split
  · split
    · rfl
    · split
      · simp [List.map_drop]
      · simp [List.map_take, List.map_drop]
  · rfl

theorem getAllCustomers_eq_ofViews (q : ListQuery) (db : Store) :
    getAllCustomers q db = getAllCustomersOfViews q (db.customers.map Customer.select) := by
  unfold getAllCustomers getAllCustomersOfViews
  simp only [← map_sortDocs Customer.select Customer.createdAt CustomerView.createdAt
    (fun _ => rfl), ← map_skipLimit, List.length_map]
  cases skipLimit (((orDefault (parseInt q.page) (.int 1)).sub (.int 1)).mul
      (orDefault (parseInt q.limit) (.int 10)))
    (orDefault (parseInt q.limit) (.int 10))
    (sortDocs Customer.createdAt
      (if q.sortOrder.map toLowerCase = some "asc" then 1 else -1) db.customers) with
  | none => rfl
  | some found => simp only [Option.map_some', List.length_map]

/-- The customers half of C10: two stores whose customers agree on every
field but `password` and `otp` get the same reply from `getAllCustomers`. -/
theorem getAllCustomers_hides_secrets (q : ListQuery) (db other : Store)
    (hsame : db.customers.map Customer.select = other.customers.map Customer.select) :
    getAllCustomers q db = getAllCustomers q other := by
  rw [getAllCustomers_eq_ofViews, getAllCustomers_eq_ofViews, hsame]

/-- C10 fails for `getAllPathologyCenters`: two stores that differ only in
the password hash of the admin of a center get different replies, each
carrying the hash of its store in the populated `adminId`. -/
theorem getAllPathologyCenters_returns_password :
    (linkedStore "digestA").centers = (linkedStore "digestB").centers
      ∧ (linkedStore "digestA").admins.map Admin.withoutPassword
          = (linkedStore "digestB").admins.map Admin.withoutPassword
      ∧ (getAllPathologyCenters plainQuery (linkedStore "digestA")).items.map
            (fun c => c.adminId.bind AdminObject.password) = [some "digestA"]
      ∧ (getAllPathologyCenters plainQuery (linkedStore "digestB")).items.map
            (fun c => c.adminId.bind AdminObject.password) = [some "digestB"]
      ∧ getAllPathologyCenters plainQuery (linkedStore "digestA")
          ≠ getAllPathologyCenters plainQuery (linkedStore "digestB") := by
  refine ⟨by decide, by decide, by decide, by decide, by decide⟩

/-! ## Theorems: searchPathology -/

/-- The reply of `searchPathology` does not depend on the `page` and `limit`
parameters of the query. -/
theorem searchPathology_page_limit_unread (re : RegExpEngine) (q : SearchQuery)
    (page limit : Option String) (db : Store) :
    searchPathology re { q with page := page, limit := limit } db
      = searchPathology re q db := rfl

/-- C6 fails: with twelve matching centers and `page=2&limit=5` in the query,
the reply is the first page of ten (created at times 11 down to 2), with
`currentPage` 1 and `totalPages` 2, where the claim has the five centers
after the first five, `currentPage` 2 and `totalPages` 3. -/
theorem searchPathology_ignores_page_and_limit :
    parseInt labPageTwo.page = .int 2 ∧ parseInt labPageTwo.limit = .int 5
      ∧ searchPathology literalEngine labPageTwo (centersStore 12)
        = .sent 200 true "Pathology fetched successfully"
            (.page ([11, 10, 9, 8, 7, 6, 5, 4, 3, 2].map sampleCenter) 1 2 12) := by
  refine ⟨by decide, by decide, by decide⟩

theorem startsWithIgnoringCase_of_map (pattern text rest : List Char)
    (h : text.map lowerChar = pattern.map lowerChar ++ rest) :
    startsWithIgnoringCase pattern text = true := by
  induction pattern generalizing text with
  | nil => simp [startsWithIgnoringCase]
  | cons p ps ih =>
    cases text with
    | nil => simp at h
    | cons t ts =>
      simp only [List.map_cons, List.cons_append, List.cons.injEq] at h
      simp [startsWithIgnoringCase, h.1, ih ts h.2]

theorem occursIgnoringCase_of_map (pattern text before rest : List Char)
    (h : text.map lowerChar = before ++ pattern.map lowerChar ++ rest) :
    occursIgnoringCase pattern text = true := by
  induction before generalizing text with
  | nil =>
    rw [List.nil_append] at h
    cases text with
    | nil =>
      have : pattern = [] := by
        cases pattern with
        | nil => rfl
        | cons p ps => simp at h
      simp [occursIgnoringCase, this]
    | cons t ts =>
      simp [occursIgnoringCase, startsWithIgnoringCase_of_map pattern (t :: ts) rest h]
  | cons b bs ih =>
    cases text with
    | nil => simp at h
    | cons t ts =>
      simp only [List.map_cons, List.cons_append, List.cons.injEq] at h
      simp [occursIgnoringCase, ih ts h.2]

theorem literalEngine_finds (term text : String) (h : ContainsIgnoringCase term text) :
    literalEngine.test term text = true := by
  obtain ⟨before, rest, h⟩ := h
  exact occursIgnoringCase_of_map _ _ before rest h

theorem countP_insertSorted {α : Type} (key : α → Nat) (dir : Int) (p : α → Bool) (a : α)
    (l : List α) : (insertSorted key dir a l).countP p = (a :: l).countP p := by
  induction l with
  | nil => rfl
  | cons b rest ih =>
    by_cases h : (if dir = 1 then key a ≤ key b else key b ≤ key a)
    · simp only [insertSorted, if_pos h]
    · simp only [insertSorted, if_neg h, List.countP_cons, ih]
      omega

theorem countP_sortDocs {α : Type} (key : α → Nat) (dir : Int) (p : α → Bool) (l : List α) :
    (sortDocs key dir l).countP p = l.countP p := by
  induction l with
  | nil => rfl
  | cons a rest ih =>
    have h : sortDocs key dir (a :: rest) = insertSorted key dir a (sortDocs key dir rest) := rfl
    rw [h, countP_insertSorted, List.countP_cons, List.countP_cons, ih]

theorem mem_take_of_newest {α : Type} (key : α → Nat) (c : α) (l : List α) (n : Nat)
    (hsorted : l.Pairwise (fun x y => key y ≤ key x)) (hc : c ∈ l)
    (hcount : l.countP (fun d => decide (key c ≤ key d)) ≤ n) : c ∈ l.take n := by
  induction l generalizing n with
  | nil => simp at hc
  | cons a rest ih =>
    rw [List.pairwise_cons] at hsorted
    have hca : key c ≤ key a := by
      rcases List.mem_cons.1 hc with h | h
      · rw [h]
      · exact hsorted.1 c h
    have hpa : (decide (key c ≤ key a)) = true := by simpa using hca
    rw [List.countP_cons, hpa, if_pos rfl] at hcount
    obtain ⟨m, rfl⟩ : ∃ m, n = m + 1 := ⟨n - 1, by omega⟩
    rw [List.take_succ_cons]
    rcases List.mem_cons.1 hc with h | h
    · rw [h]
      exact List.mem_cons_self _ _
    · exact List.mem_cons_of_mem _ (ih m hsorted.2 h (by omega))

/-- C9, amended: an empty or missing search term gets the 400 error; and
when the query gives no `page` and no `limit`, for every non-empty term that
the regular-expression engine accepts and finds wherever it occurs as a
substring, letter case ignored (a term without pattern operators), a stored
center whose `centerName` or `email` contains the term in that sense is in
the reply whenever at most ten of the matching centers are as recent as it
or more recent: the reply holds the ten most recent matches. -/
theorem searchPathology_finds (re : RegExpEngine) (q : SearchQuery) (db : Store) :
    (truthy q.value = false →
        searchPathology re q db = .next (.custom "Search value is required" 400))
      ∧ (∀ term : String, q.value = some term → term ≠ "" →
          q.page = none → q.limit = none → re.accepts term = true →
          (∀ text : String, ContainsIgnoringCase term text → re.test term text = true) →
          ∀ c ∈ db.centers,
            ContainsIgnoringCase term c.centerName ∨ ContainsIgnoringCase term c.email →
            (db.centers.filter (searchQuery re term)).countP
                (fun d => decide (c.createdAt ≤ d.createdAt)) ≤ 10 →
            c ∈ (searchPathology re q db).items) := by
  constructor
  · intro hvalue
    simp [searchPathology, hvalue]
  · intro term hterm hne _ _ haccepts hliteral c hc hcontains hcount
    have htruthy : truthy (some term) = true := by simpa [truthy] using hne
    have hmatch : searchQuery re term c = true := by
      rcases hcontains with h | h
      · simp [searchQuery, hliteral _ h]
      · simp [searchQuery, hliteral _ h]
    have hmem : c ∈ db.centers.filter (searchQuery re term) :=
      List.mem_filter.2 ⟨hc, hmatch⟩
    have hsorted : c ∈ sortDocs PathologyCenter.createdAt (-1)
        (db.centers.filter (searchQuery re term)) := (mem_sortDocs _ _ _ _).2 hmem
    have hordered : (sortDocs PathologyCenter.createdAt (-1)
        (db.centers.filter (searchQuery re term))).Pairwise
        (fun x y => y.createdAt ≤ x.createdAt) := by
      have h := pairwise_sortDocs PathologyCenter.createdAt (-1)
        (db.centers.filter (searchQuery re term))
      have hne1 : ¬ ((-1 : Int) = 1) := by decide
      simpa only [inOrder, hne1, if_false] using h
    have htaken : c ∈ (sortDocs PathologyCenter.createdAt (-1)
        (db.centers.filter (searchQuery re term))).take 10 :=
      mem_take_of_newest PathologyCenter.createdAt c _ 10 hordered hsorted
        (by rw [countP_sortDocs]; exact hcount)
    have hskip : ((orDefault (parseInt none) (.int 1)).sub (.int 1)).mul
        (orDefault (parseInt none) (.int 10)) = .int 0 := by decide
    have hlimit : orDefault (parseInt none) (.int 10) = .int 10 := by decide
    have hpage : skipLimit (((orDefault (parseInt none) (.int 1)).sub (.int 1)).mul
          (orDefault (parseInt none) (.int 10)))
        (orDefault (parseInt none) (.int 10))
        (sortDocs PathologyCenter.createdAt (-1) (db.centers.filter (searchQuery re term)))
        = some ((sortDocs PathologyCenter.createdAt (-1)
            (db.centers.filter (searchQuery re term))).take 10) := by
      rw [hskip, hlimit]
      simp [skipLimit]
    have hnonempty : ¬ ((sortDocs PathologyCenter.createdAt (-1)
        (db.centers.filter (searchQuery re term))).take 10).length = 0 := by
      intro h0
      rw [List.length_eq_zero] at h0
      rw [h0] at htaken
      simp at htaken
    simp only [searchPathology, hterm, htruthy, Option.getD_some, haccepts, hpage]
    simpa only [Bool.not_true, Bool.false_eq_true, if_false, hnonempty, Reply.items]
      using htaken

theorem searchPathology_finds_witness :
    labSearch.page = none ∧ labSearch.limit = none
      ∧ 10 < ((centersStore 11).centers.filter (searchQuery literalEngine "lab")).length
      ∧ ((centersStore 11).centers.filter (searchQuery literalEngine "lab")).countP
          (fun d => decide ((sampleCenter 5).createdAt ≤ d.createdAt)) ≤ 10
      ∧ sampleCenter 5 ∈ (centersStore 11).centers
      ∧ ContainsIgnoringCase "lab" (sampleCenter 5).centerName
      ∧ sampleCenter 5 ∈ (searchPathology literalEngine labSearch (centersStore 11)).items :=
  have hcontains : ContainsIgnoringCase "lab" (sampleCenter 5).centerName :=
    ⟨"city ".toList, [], by decide⟩
  ⟨rfl, rfl, by decide, by decide, by decide, hcontains,
    (searchPathology_finds literalEngine labSearch (centersStore 11)).2 "lab" rfl (by decide)
      rfl rfl (by decide) (literalEngine_finds "lab") (sampleCenter 5) (by decide)
      (Or.inl hcontains) (by decide)⟩

/-- C9 as stated fails: eleven stored centers contain the term "lab" in their
name, and the one created first is not in the reply, which holds the ten
created last. -/
theorem searchPathology_eleventh_counterexample :
    sampleCenter 0 ∈ (centersStore 11).centers
      ∧ ContainsIgnoringCase "lab" (sampleCenter 0).centerName
      ∧ (searchPathology literalEngine labSearch (centersStore 11)).items.length = 10
      ∧ sampleCenter 0 ∉ (searchPathology literalEngine labSearch (centersStore 11)).items :=
  ⟨by decide, ⟨"city ".toList, [], by decide⟩, by decide, by decide⟩

/-! ## Theorems: decimal query values -/

theorem digitValue_digitChar (k : Nat) (hk : k < 10) :
    digitValue 10 (Nat.digitChar k) = some k := by
  interval_cases k <;> rfl

theorem digitChar_range (k : Nat) (hk : k < 10) :
    48 ≤ (Nat.digitChar k).toNat ∧ (Nat.digitChar k).toNat ≤ 57 := by
  interval_cases k <;> decide

theorem readDigits_toDigitsCore (fuel n : Nat) (ds : List Char) (acc : Option Nat)
    (hfuel : n < fuel) :
    ∃ k : Nat, readDigits 10 acc (Nat.toDigitsCore 10 fuel n ds)
      = readDigits 10 (some (acc.getD 0 * 10 ^ k + n)) ds := by
  induction fuel generalizing n ds acc with
  | zero => omega
  | succ fuel ih =>
    have hd := digitValue_digitChar (n % 10) (Nat.mod_lt n (by decide))
    by_cases hsmall : n / 10 = 0
    · refine ⟨1, ?_⟩
      have hn : n % 10 = n := Nat.mod_eq_of_lt (by omega)
      rw [hn] at hd
      simp only [Nat.toDigitsCore, hsmall, if_true, hn, readDigits, hd, pow_one]
    · obtain ⟨k, hk⟩ := ih (n / 10) (Nat.digitChar (n % 10) :: ds) acc (by omega)
      refine ⟨k + 1, ?_⟩
      simp only [Nat.toDigitsCore, hsmall, if_false, hk, readDigits, hd, Option.getD_some]
      congr 2
      have := Nat.div_add_mod n 10
      rw [pow_succ]
      nlinarith

theorem toDigitsCore_digits (fuel n : Nat) (ds : List Char) (hfuel : n < fuel) :
    ∃ (c : Char) (rest : List Char), Nat.toDigitsCore 10 fuel n ds = c :: rest
      ∧ (48 ≤ c.toNat ∧ c.toNat ≤ 57)
      ∧ (rest = ds ∨ ∃ (d : Char) (more : List Char),
          rest = d :: more ∧ 48 ≤ d.toNat ∧ d.toNat ≤ 57) := by
  induction fuel generalizing n ds with
  | zero => omega
  | succ fuel ih =>
    have hr := digitChar_range (n % 10) (Nat.mod_lt n (by decide))
    by_cases hsmall : n / 10 = 0
    · exact ⟨_, ds, by simp only [Nat.toDigitsCore, hsmall, if_true], hr, Or.inl rfl⟩
    · obtain ⟨c, rest, heq, hc, hrest⟩ :=
        ih (n / 10) (Nat.digitChar (n % 10) :: ds) (by omega)
      refine ⟨c, rest, by simp only [Nat.toDigitsCore, hsmall, if_false, heq], hc, Or.inr ?_⟩
      rcases hrest with h | h
      · exact ⟨_, ds, h, hr⟩
      · exact h

theorem isStrWhiteSpace_digit (c : Char) (hc : 48 ≤ c.toNat ∧ c.toNat ≤ 57) :
    isStrWhiteSpace c = false := by
  simp only [isStrWhiteSpace, Bool.or_eq_false_iff, Bool.and_eq_false_iff,
    decide_eq_false_iff_not]
  omega

/-- The decimal form of a natural number below `2^53` is read back by
`parseInt`: every such integer can be given as `page` or `limit`. -/
theorem parseInt_toString (n : Nat) (hexact : n < 2 ^ 53) :
    parseInt (some (toString n)) = .int (n : Int) := by
  have hlist : (toString n).toList = Nat.toDigits 10 n := rfl
  obtain ⟨c, rest, heq, hc, hrest⟩ := toDigitsCore_digits (n + 1) n [] (Nat.lt_succ_self n)
  obtain ⟨k, hk⟩ := readDigits_toDigitsCore (n + 1) n [] none (Nat.lt_succ_self n)
  have hdrop : (Nat.toDigitsCore 10 (n + 1) n []).dropWhile isStrWhiteSpace
      = Nat.toDigitsCore 10 (n + 1) n [] := by
    rw [heq, List.dropWhile_cons, isStrWhiteSpace_digit c hc]
    rfl
  have hsign : readSign (Nat.toDigitsCore 10 (n + 1) n [])
      = (1, Nat.toDigitsCore 10 (n + 1) n []) := by
    have h1 : ¬ c.toNat = 45 := by omega
    have h2 : ¬ c.toNat = 43 := by omega
    rw [heq]
    simp only [readSign, h1, h2, if_false]
  have hradix : readRadix (Nat.toDigitsCore 10 (n + 1) n [])
      = (10, Nat.toDigitsCore 10 (n + 1) n []) := by
    rw [heq]
    rcases hrest with h | ⟨d, more, h, hd⟩
    · rw [h]
      rfl
    · have h1 : ¬ d.toNat = 120 := by omega
      have h2 : ¬ d.toNat = 88 := by omega
      rw [h]
      simp [readRadix, h1, h2]
  simp only [parseInt, hlist, Nat.toDigits, hdrop, hsign, hradix, hk, readDigits,
    Option.getD_none, zero_mul, zero_add, one_mul, JsNumber.ofInt_natCast n hexact]

end Medliver
